import Mathlib

/-!
# Verification of the PawSense backend resource-cache and decode pipeline

Shallow embedding of the core of the PawSense_backend repository:

* `app/services/detection_service_fixed.py` — the decoder used by the live
  endpoints (`runInferenceFixed`),
* `app/services/detection_service.py` — the legacy decoder kept for the debug
  endpoint (`runInferenceLegacy`),
* `app/services/model_service.py` — the lazy per-key resource cache
  (`ModelService` state machine), plus a two-thread interleaving model of its
  unsynchronised check-then-fetch path,
* `app/utils/config.py` — the configuration constants the claims mention,
* upload validation (`validate_image` in both detection services).

Python floats are modelled as exact rationals (`ℚ`); `round(x, n)` is
modelled as round-half-even on the grid of multiples of `10⁻ⁿ`, matching
Python's banker rounding.  Machine-specific binary-float error is not
modelled; all claims below concern exact decimal examples where the two
agree.  f-string interpolation inside HTTP error details is elided: error
values carry the status code and a fixed prefix of the message.
-/

deriving instance DecidableEq for Except

namespace PawSense

/-- Round-half-even to the nearest integer, as Python's built-in `round`. -/
def roundHalfEven (x : ℚ) : ℤ :=
  if x - ⌊x⌋ < 1/2 then ⌊x⌋
  else if (1:ℚ)/2 < x - ⌊x⌋ then ⌊x⌋ + 1
  else if Even ⌊x⌋ then ⌊x⌋ else ⌊x⌋ + 1

/-- Python `round(x, n)`: round-half-even on the grid of multiples of `10⁻ⁿ`. -/
def pyRound (n : ℕ) (x : ℚ) : ℚ :=
  (roundHalfEven (x * 10 ^ n) : ℚ) / 10 ^ n

/-- Models `max(0, min(x, hi))`, the coordinate clamp used by both decoders. -/
def clampQ (x hi : ℚ) : ℚ := max 0 (min x hi)

/-- Models `np.argmax` over a score row together with the maximum value: returns the
first index attaining the maximum and that maximum.  `argmaxQ [] = (0, 0)`
is never consulted: both decoders guard the empty case separately. -/
def argmaxGo (best : ℚ) (bestIdx i : ℕ) : List ℚ → ℕ × ℚ
  | [] => (bestIdx, best)
  | y :: ys => if best < y then argmaxGo y i (i + 1) ys else argmaxGo best bestIdx (i + 1) ys

def argmaxQ : List ℚ → ℕ × ℚ
  | [] => (0, 0)
  | x :: xs => argmaxGo x 0 1 xs

/-- Python `int(x)` on a float: truncation toward zero. -/
def intTrunc (x : ℚ) : ℤ := if 0 ≤ x then ⌊x⌋ else -⌊-x⌋

/-- Models `fastapi.HTTPException`: status code plus detail message. -/
structure HTTPError where
  status : ℕ
  detail : String
deriving DecidableEq, Repr

/-- Model of `app/models/schemas.py` `Detection`.  The pydantic model stores
`bbox : List[float]` always built as `[x1, y1, x2, y2]`; the four
coordinates are exposed here as the four named fields of that list.
The pydantic field constraint `confidence: ge=0, le=1` is enforced at
construction time; the decoders model that check explicitly and fail the
whole inference (HTTP 500, as the wrapping `except` does) if it is violated. -/
structure Detection where
  class_id : ℤ
  label : String
  confidence : ℚ
  x1 : ℚ
  y1 : ℚ
  x2 : ℚ
  y2 : ℚ
deriving DecidableEq, Repr

namespace Config

/-- Default of `Config.ALLOWED_FILE_TYPES`:
`"image/jpeg,image/jpg,image/png,image/bmp,image/tiff".split(",")`. -/
def ALLOWED_FILE_TYPES : List String :=
  ["image/jpeg", "image/jpg", "image/png", "image/bmp", "image/tiff"]

/-- Default of `Config.MAX_FILE_SIZE`: `10 * 1024 * 1024` bytes. -/
def MAX_FILE_SIZE : ℕ := 10 * 1024 * 1024

/-- Default of `Config.DETECTION_CONFIDENCE`: `float("0.5")`. -/
def DETECTION_CONFIDENCE : ℚ := 1/2

end Config

/-- The `numpy` transpose of a (uniform) matrix stored row-major: entry `(j, i)`
of the result is entry `(i, j)` of the argument; missing entries of a ragged
argument default to `0` (uniform numpy arrays are never ragged). -/
def transposeM (m : List (List ℚ)) : List (List ℚ) :=
  (List.range (m.headD []).length).map fun j => m.map fun r => r.getD j 0

/-- Raw model output tensor(s), tagged by rank; only batch-0 data is ever
read by either decoder, and rank-4 data is never read at all. -/
inductive RawOutput where
  | rank1 (data : List ℚ)
  | rank2 (data : List (List ℚ))
  | rank3 (d0 d1 d2 : ℕ) (data : List (List (List ℚ)))
  | rank4 (data : List (List (List (List ℚ))))
deriving DecidableEq, Repr

/-! ## detection_service_fixed.py — `DetectionService.run_inference`

The decoder used by the live `/detect` endpoints.  A rank-3 output
`[1, num_channels, num_predictions]` is transposed to rows of
`[x, y, w, h, score…]`; every other rank raises HTTP 500. -/

/-- One loop iteration of the fixed decoder (lines 146–193):
returns `ok none` when the row is skipped (low confidence or degenerate box),
`ok (some d)` when a `Detection` is appended, `error` when the iteration
raises (malformed row or pydantic rejection), which aborts the whole
inference with HTTP 500. -/
def processRowFixed (labels : List (ℤ × String)) (imgW imgH : ℕ) (pred : List ℚ) :
    Except HTTPError (Option Detection) :=
  match pred with
  | xc :: yc :: bw :: bh :: scores =>
    match scores with
    | [] => .error ⟨500, "Error during inference"⟩
    | _ :: _ =>
      let am := argmaxQ scores
      let class_id : ℤ := (am.1 : ℤ)
      let confidence := am.2
      if confidence < 1/4 then .ok none
      else
        let x1 := clampQ ((xc - bw / 2) * (imgW : ℚ)) (imgW : ℚ)
        let y1 := clampQ ((yc - bh / 2) * (imgH : ℚ)) (imgH : ℚ)
        let x2 := clampQ ((xc + bw / 2) * (imgW : ℚ)) (imgW : ℚ)
        let y2 := clampQ ((yc + bh / 2) * (imgH : ℚ)) (imgH : ℚ)
        if x2 ≤ x1 ∨ y2 ≤ y1 then .ok none
        else
          let label := (labels.lookup class_id).getD ("Unknown_" ++ toString class_id)
          let conf := pyRound 4 confidence
          if 0 ≤ conf ∧ conf ≤ 1 then
            .ok (some ⟨class_id, label, conf, pyRound 2 x1, pyRound 2 y1,
                       pyRound 2 x2, pyRound 2 y2⟩)
          else .error ⟨500, "Error during inference"⟩
  | _ => .error ⟨500, "Error during inference"⟩

/-- The shared per-row loop of both decoders: rows processed in order, an
exception in any iteration discarding all accumulated detections. -/
def decodeRows (f : List ℚ → Except HTTPError (Option Detection)) :
    List (List ℚ) → Except HTTPError (List Detection)
  | [] => .ok []
  | r :: rs =>
    match f r with
    | .error e => .error e
    | .ok none => decodeRows f rs
    | .ok (some d) =>
      match decodeRows f rs with
      | .error e => .error e
      | .ok ds => .ok (d :: ds)

/-- Model of `DetectionService.run_inference` of `detection_service_fixed.py`
(post-invoke part, lines 127–200): rank-3 output is always treated as
channels-first `[1, 4+C, N]` and transposed; any other rank raises
`HTTPException(500, "Unexpected model output shape: …")`. -/
def runInferenceFixed (labels : List (ℤ × String)) (imgW imgH : ℕ) (out : RawOutput) :
    Except HTTPError (List Detection) :=
  match out with
  | .rank3 _ _ d2 data =>
    let predictions := transposeM (data.getD 0 [])
    decodeRows (processRowFixed labels imgW imgH)
      ((List.range d2).map fun i => predictions.getD i [])
  | _ => .error ⟨500, "Unexpected model output shape"⟩

/-! ## detection_service.py — legacy `DetectionService.run_inference`

The decoder kept for the `/debug` endpoint.  A single rank-3 output
`[1, N, V]` is processed row-major, dispatching per row-width `V`:
`V ≥ 85` → objectness × best class score; `6 ≤ V < 85` → direct
confidence/class; `V < 6` → row skipped.  Rank-2 output, any other rank,
and multiple outputs all fall through to `pass` and return an empty list. -/

/-- Lines 176–217 of `detection_service.py`: threshold test, coordinate
resolution (normalized iff `x_center ≤ 1 and y_center ≤ 1`), clamp,
degenerate-box drop, label fallback, and `Detection` construction. -/
def legacyEmit (labels : List (ℤ × String)) (imgW imgH : ℕ)
    (xc yc w h conf : ℚ) (cid : ℤ) : Except HTTPError (Option Detection) :=
  if conf < 1/2 then .ok none
  else
    let raw : ℚ × ℚ × ℚ × ℚ :=
      if xc ≤ 1 ∧ yc ≤ 1 then
        ((xc - w / 2) * (imgW : ℚ), (yc - h / 2) * (imgH : ℚ),
         (xc + w / 2) * (imgW : ℚ), (yc + h / 2) * (imgH : ℚ))
      else (xc - w / 2, yc - h / 2, xc + w / 2, yc + h / 2)
    let x1 := clampQ raw.1 (imgW : ℚ)
    let y1 := clampQ raw.2.1 (imgH : ℚ)
    let x2 := clampQ raw.2.2.1 (imgW : ℚ)
    let y2 := clampQ raw.2.2.2 (imgH : ℚ)
    if x2 ≤ x1 ∨ y2 ≤ y1 then .ok none
    else
      let label := (labels.lookup cid).getD ("Unknown_" ++ toString cid)
      let conf4 := pyRound 4 conf
      if 0 ≤ conf4 ∧ conf4 ≤ 1 then
        .ok (some ⟨cid, label, conf4, pyRound 2 x1, pyRound 2 y1,
                   pyRound 2 x2, pyRound 2 y2⟩)
      else .error ⟨500, "Error during inference"⟩

/-- One loop iteration of the legacy decoder (lines 154–217), dispatching on
the row width `numValues` taken from the tensor shape. -/
def processRowLegacy (numValues : ℕ) (labels : List (ℤ × String)) (imgW imgH : ℕ)
    (det : List ℚ) : Except HTTPError (Option Detection) :=
  if 85 ≤ numValues then
    match det with
    | xc :: yc :: w :: h :: obj :: scores =>
      match scores with
      | [] => .error ⟨500, "Error during inference"⟩
      | _ :: _ =>
        let am := argmaxQ scores
        legacyEmit labels imgW imgH xc yc w h (obj * am.2) (am.1 : ℤ)
    | _ => .error ⟨500, "Error during inference"⟩
  else if 6 ≤ numValues then
    match det with
    | xc :: yc :: w :: h :: conf :: cidF :: _ =>
      legacyEmit labels imgW imgH xc yc w h conf (intTrunc cidF)
    | _ => .error ⟨500, "Error during inference"⟩
  else .ok none

/-- Model of `DetectionService.run_inference` of `detection_service.py` (post-invoke
part, lines 138–232).  The bare `pass` branches for rank-2 output, for a
single output of any other rank, and for multiple outputs all return the
empty detection list with no error. -/
def runInferenceLegacy (labels : List (ℤ × String)) (imgW imgH : ℕ)
    (outputs : List RawOutput) : Except HTTPError (List Detection) :=
  match outputs with
  | [out] =>
    match out with
    | .rank3 _ d1 d2 data =>
      decodeRows (processRowLegacy d2 labels imgW imgH)
        ((List.range d1).map fun i => (data.getD 0 []).getD i [])
    | .rank2 _ => .ok []
    | _ => .ok []
  | _ => .ok []

/-! ## `DetectionService.validate_image` (identical in both service files) -/

/-- Python `str.lower`, modelled character-wise. -/
def pyLower (s : String) : String := String.mk (s.toList.map Char.toLower)

/-- Python `str.strip`, modelled character-wise. -/
def pyStrip (s : String) : String :=
  String.mk (((s.toList.dropWhile Char.isWhitespace).reverse.dropWhile
    Char.isWhitespace).reverse)

/-- Models `os.path.splitext(path)[1]`: the extension (with dot) of the basename,
where leading dots of the basename never start an extension. -/
def splitextExt (path : String) : String :=
  let base := ((path.toList.reverse.takeWhile fun c => c ≠ '/').reverse)
  let lead := (base.takeWhile fun c => c = '.').length
  let rest := base.drop lead
  if rest.contains '.' then
    String.mk ('.' :: (rest.reverse.takeWhile fun c => c ≠ '.').reverse)
  else ""

/-- The five extra MIME types accepted beyond the configured allow-list. -/
def extra_types : List String :=
  ["image/pjpeg", "image/x-png", "image/x-bmp", "image/gif", "image/webp"]

/-- The hardcoded extension fallback list. -/
def allowed_exts : List String :=
  [".jpg", ".jpeg", ".png", ".bmp", ".tiff", ".gif", ".webp"]

/-- The trailing size check: applied only when the upload reports a truthy
size (`hasattr` and truthiness check on `file.size`); `none` models both a
missing attribute and `None`, and `some 0` is falsy. -/
def checkSize (size : Option ℕ) : Except HTTPError Unit :=
  match size with
  | some n =>
    if n ≠ 0 ∧ Config.MAX_FILE_SIZE < n then .error ⟨400, "File size too large"⟩
    else .ok ()
  | none => .ok ()

/-- Model of `DetectionService.validate_image` (lines 27–78): normalized content type
against the configured list plus `extra_types`, then extension fallback,
then the conditional size check. -/
def validate_image (contentType filename : Option String) (size : Option ℕ) :
    Except HTTPError Unit :=
  let content_type := pyStrip (pyLower (contentType.getD ""))
  let allowed_types := (Config.ALLOWED_FILE_TYPES.map fun t => pyStrip (pyLower t))
    ++ extra_types
  if content_type ∈ allowed_types then checkSize size
  else if pyLower (splitextExt (filename.getD "")) ∈ allowed_exts then checkSize size
  else .error ⟨400, "Invalid file type"⟩

/-! ## model_service.py — `ModelService` as a state machine

Loaded artifacts are identified by the id of the scratch file they were
parsed from, which is fresh per download: two downloads never yield the
same object id, so "same id" is object identity.  `parseOk` oracles model
whether the downloaded labels JSON / metadata YAML parses.  All functions
return the final state even on error, as Python exceptions leave in-place
mutations behind. -/

inductive Artifact where
  | model
  | labels
  | metadata
deriving DecidableEq, Repr

/-- The registered model keys, `config.HF_URLS.keys()`. -/
def hf_urls : List String := ["cats", "dogs"]

structure MS where
  models_cache : List (String × ℕ)
  labels_cache : List (String × ℕ)
  metadata_cache : List (String × ℕ)
  nextTmp : ℕ
  liveTmp : List ℕ
  fetchLog : List (String × Artifact)
deriving DecidableEq, Repr

/-- Fresh `ModelService` instance: empty caches, no scratch files. -/
def MS.init : MS := ⟨[], [], [], 0, [], []⟩

/-- Python dict assignment `d[k] = v` on an association list. -/
def dinsert (l : List (String × ℕ)) (k : String) (v : ℕ) : List (String × ℕ) :=
  (k, v) :: l.eraseP fun p => p.1 == k

/-- Models `ModelService.download_file`: one HTTP GET of artifact `a` for key `k`
into a fresh scratch file, which stays live until someone unlinks it. -/
def download_file (k : String) (a : Artifact) (s : MS) : ℕ × MS :=
  (s.nextTmp, { s with nextTmp := s.nextTmp + 1,
                       liveTmp := s.nextTmp :: s.liveTmp,
                       fetchLog := (k, a) :: s.fetchLog })

/-- Model of `ModelService.load_model` (lines 134–163): cache check, URL lookup
(`KeyError` → 404), download, `YOLO(temp_path)`, cache.  The scratch file is
deliberately kept ("keep temp file for model to use"). -/
def load_model (k : String) (s : MS) : Except HTTPError ℕ × MS :=
  match s.models_cache.lookup k with
  | some m => (.ok m, s)
  | none =>
    if k ∈ hf_urls then
      let r := download_file k .model s
      (.ok r.1, { r.2 with models_cache := dinsert r.2.models_cache k r.1 })
    else (.error ⟨404, "Model type not found"⟩, s)

/-- Model of `ModelService.load_labels` (lines 59–95): cache check, URL lookup
(`KeyError` → 404), download, JSON parse, cache, `os.unlink`.  The unlink
is only reached on the success path: a parse failure leaves the scratch
file live. -/
def load_labels (parseOk : Bool) (k : String) (s : MS) : Except HTTPError ℕ × MS :=
  match s.labels_cache.lookup k with
  | some v => (.ok v, s)
  | none =>
    if k ∈ hf_urls then
      let r := download_file k .labels s
      if parseOk then
        (.ok r.1, { r.2 with labels_cache := dinsert r.2.labels_cache k r.1,
                             liveTmp := r.2.liveTmp.erase r.1 })
      else (.error ⟨500, "Invalid JSON in labels file"⟩, r.2)
    else (.error ⟨404, "Model type not found"⟩, s)

/-- Model of `ModelService.load_metadata` (lines 97–132): same shape as
`load_labels` with the YAML parse. -/
def load_metadata (parseOk : Bool) (k : String) (s : MS) : Except HTTPError ℕ × MS :=
  match s.metadata_cache.lookup k with
  | some v => (.ok v, s)
  | none =>
    if k ∈ hf_urls then
      let r := download_file k .metadata s
      if parseOk then
        (.ok r.1, { r.2 with metadata_cache := dinsert r.2.metadata_cache k r.1,
                             liveTmp := r.2.liveTmp.erase r.1 })
      else (.error ⟨500, "Invalid YAML in metadata file"⟩, r.2)
    else (.error ⟨404, "Model type not found"⟩, s)

/-- Models `if model_type not in self.models_cache: self.models_cache[model_type] =
self.load_model(model_type)` (line 176–177). -/
def ensureModel (k : String) (s : MS) : Except HTTPError Unit × MS :=
  match s.models_cache.lookup k with
  | some _ => (.ok (), s)
  | none =>
    match load_model k s with
    | (.ok m, s1) => (.ok (), { s1 with models_cache := dinsert s1.models_cache k m })
    | (.error e, s1) => (.error e, s1)

/-- Line 179–180, for the labels cache. -/
def ensureLabels (pl : Bool) (k : String) (s : MS) : Except HTTPError Unit × MS :=
  match s.labels_cache.lookup k with
  | some _ => (.ok (), s)
  | none =>
    match load_labels pl k s with
    | (.ok v, s1) => (.ok (), { s1 with labels_cache := dinsert s1.labels_cache k v })
    | (.error e, s1) => (.error e, s1)

/-- Line 182–183, for the metadata cache. -/
def ensureMetadata (pm : Bool) (k : String) (s : MS) : Except HTTPError Unit × MS :=
  match s.metadata_cache.lookup k with
  | some _ => (.ok (), s)
  | none =>
    match load_metadata pm k s with
    | (.ok v, s1) => (.ok (), { s1 with metadata_cache := dinsert s1.metadata_cache k v })
    | (.error e, s1) => (.error e, s1)

/-- Model of `ModelService.initialize_model_resources` (lines 165–183): reject
unregistered keys with **400**, then load-and-cache each missing artifact
in order (model, labels, metadata); an exception in any step leaves the
earlier steps' mutations in place. -/
def initResources (pl pm : Bool) (k : String) (s : MS) : Except HTTPError Unit × MS :=
  if k ∈ hf_urls then
    match ensureModel k s with
    | (.error e, s1) => (.error e, s1)
    | (.ok _, s1) =>
      match ensureLabels pl k s1 with
      | (.error e, s2) => (.error e, s2)
      | (.ok _, s2) => ensureMetadata pm k s2
  else (.error ⟨400, "Invalid model type: " ++ k⟩, s)

/-- Model of `ModelService.get_model` (lines 185–189). -/
def get_model (pl pm : Bool) (k : String) (s : MS) : Except HTTPError ℕ × MS :=
  match s.models_cache.lookup k with
  | some m => (.ok m, s)
  | none =>
    match initResources pl pm k s with
    | (.error e, s1) => (.error e, s1)
    | (.ok _, s1) =>
      match s1.models_cache.lookup k with
      | some m => (.ok m, s1)
      | none => (.error ⟨500, "KeyError"⟩, s1)

/-- Model of `ModelService.get_labels` (lines 191–195). -/
def get_labels (pl pm : Bool) (k : String) (s : MS) : Except HTTPError ℕ × MS :=
  match s.labels_cache.lookup k with
  | some v => (.ok v, s)
  | none =>
    match initResources pl pm k s with
    | (.error e, s1) => (.error e, s1)
    | (.ok _, s1) =>
      match s1.labels_cache.lookup k with
      | some v => (.ok v, s1)
      | none => (.error ⟨500, "KeyError"⟩, s1)

/-- Model of `ModelService.get_metadata` (lines 197–201). -/
def get_metadata (pl pm : Bool) (k : String) (s : MS) : Except HTTPError ℕ × MS :=
  match s.metadata_cache.lookup k with
  | some v => (.ok v, s)
  | none =>
    match initResources pl pm k s with
    | (.error e, s1) => (.error e, s1)
    | (.ok _, s1) =>
      match s1.metadata_cache.lookup k with
      | some v => (.ok v, s1)
      | none => (.error ⟨500, "KeyError"⟩, s1)

/-- One observable `ModelService` call, with its parse oracles. -/
inductive Op where
  | gm (pl pm : Bool) (k : String)
  | gl (pl pm : Bool) (k : String)
  | gmd (pl pm : Bool) (k : String)
deriving DecidableEq, Repr

def run1 (op : Op) (s : MS) : MS :=
  match op with
  | .gm pl pm k => (get_model pl pm k s).2
  | .gl pl pm k => (get_labels pl pm k s).2
  | .gmd pl pm k => (get_metadata pl pm k s).2

/-- The rest of the process lifetime: any sequence of service calls. -/
def run (ops : List Op) (s : MS) : MS := ops.foldl (fun s op => run1 op s) s

/-- Number of fetches of artifact `a` for key `k` performed so far. -/
def countFetch (s : MS) (k : String) (a : Artifact) : ℕ :=
  s.fetchLog.count (k, a)

/-! ## Two concurrent `get_model` callers, interleaved

`ModelService` has no lock: `get_model` for an unpopulated key runs
check (`model_type not in self.models_cache`) → fetch (`download_file`
plus `YOLO(...)`, which suspends on network I/O) → store (dict assignment)
→ re-read (`return self.models_cache[model_type]`).  Dict operations are
atomic, but the thread can be descheduled between any two of the four
steps.  `Th.obj` is the locally loaded bundle (`0` = not fetched yet;
fetched bundles get fresh positive ids).  `Sys.fetches` counts fetch
sequences started. -/

structure Th where
  pc : ℕ
  obj : ℕ
  res : Option ℕ
deriving DecidableEq, Repr

structure Sys where
  cache : Option ℕ
  fetches : ℕ
  a : Th
  b : Th
deriving DecidableEq, Repr

def Sys.init : Sys := ⟨none, 0, ⟨0, 0, none⟩, ⟨0, 0, none⟩⟩

/-- One step of a single caller against the shared cache. -/
def stepT (cache : Option ℕ) (fetches : ℕ) (t : Th) : Option ℕ × ℕ × Th :=
  match t.pc, cache with
  | 0, some v => (cache, fetches, { t with pc := 4, res := some v })
  | 0, none => (cache, fetches, { t with pc := 1 })
  | 1, _ => (cache, fetches + 1, { t with pc := 2, obj := fetches + 1 })
  | 2, _ => (some t.obj, fetches, { t with pc := 3 })
  | 3, _ => (cache, fetches, { t with pc := 4, res := cache })
  | _, _ => (cache, fetches, t)

/-- Scheduler step: `true` steps caller `a`, `false` steps caller `b`. -/
def stepS (s : Sys) (which : Bool) : Sys :=
  if which then
    let r := stepT s.cache s.fetches s.a
    { cache := r.1, fetches := r.2.1, a := r.2.2, b := s.b }
  else
    let r := stepT s.cache s.fetches s.b
    { cache := r.1, fetches := r.2.1, a := s.a, b := r.2.2 }

def exec (sched : List Bool) (s : Sys) : Sys := sched.foldl stepS s

/-! ## Predicates and concrete example inputs used by the verification -/

/-- Key `k` is fully populated with bundle object ids `(vm, vl, vd)`. -/
def Snapshot (k : String) (vm vl vd : ℕ) (s : MS) : Prop :=
  s.models_cache.lookup k = some vm ∧ s.labels_cache.lookup k = some vl ∧
  s.metadata_cache.lookup k = some vd

/-- Equals `1` when the caller has started a fetch (`obj ≠ 0`), else `0`. -/
def fetched (t : Th) : ℕ := if t.obj = 0 then 0 else 1

/-- Inductive invariant of the two-caller interleaving: the fetch counter
equals the number of callers that started a fetch (hence ≤ 2); a caller that
finished holds a result and at least one fetch happened. -/
def SysInv (s : Sys) : Prop :=
  s.fetches = fetched s.a + fetched s.b ∧
  (s.a.pc ≤ 1 → s.a.obj = 0) ∧ (s.b.pc ≤ 1 → s.b.obj = 0) ∧
  (s.a.pc = 2 ∨ s.a.pc = 3 → s.a.obj ≠ 0) ∧ (s.b.pc = 2 ∨ s.b.pc = 3 → s.b.obj ≠ 0) ∧
  (s.a.pc = 3 → s.cache.isSome) ∧ (s.b.pc = 3 → s.cache.isSome) ∧
  (s.cache.isSome → 1 ≤ s.fetches) ∧
  (s.a.pc = 4 → s.a.res.isSome ∧ 1 ≤ s.fetches) ∧
  (s.b.pc = 4 → s.b.res.isSome ∧ 1 ≤ s.fetches) ∧
  s.a.pc ≤ 4 ∧ s.b.pc ≤ 4

/-- Input showing the rounding collapse: `x1 = 10` and `x2 = 10.002` before
rounding (a non-degenerate box that survives the drop check), both rounding
to `10.0`. -/
def inC1x : RawOutput :=
  .rank3 1 5 1 [[[10001/100000], [1/2], [1/50000], [1/5], [9/10]]]

def outC1x : Detection := ⟨0, "Unknown_0", 9/10, 10, 40, 10, 60⟩

def inC1w : RawOutput := .rank3 1 5 1 [[[1/2], [1/2], [1/5], [1/5], [9/10]]]

def outC1w : Detection := ⟨0, "Unknown_0", 9/10, 40, 40, 60, 60⟩

def inC5 : RawOutput := .rank3 1 6 1 [[[1/2], [1/2], [1/5], [1/5], [1/10], [9/10]]]

def outC5 : Detection := ⟨1, "Unknown_1", 9/10, 40, 40, 60, 60⟩

def inC2keep : List RawOutput := [.rank3 1 1 6 [[[1/2, 1/2, 1/5, 1/5, 1/2, 3]]]]

def outC2keep : Detection := ⟨3, "Unknown_3", 1/2, 40, 40, 60, 60⟩

def inC2drop : List RawOutput := [.rank3 1 1 6 [[[1/2, 1/2, 1/5, 1/5, 499999/1000000, 3]]]]

def inC2fkeep : RawOutput := .rank3 1 5 1 [[[1/2], [1/2], [1/5], [1/5], [1/4]]]

def outC2fkeep : Detection := ⟨0, "Unknown_0", 1/4, 40, 40, 60, 60⟩

def inC2fdrop : RawOutput := .rank3 1 5 1 [[[1/2], [1/2], [1/5], [1/5], [24999/100000]]]

def inC2low : RawOutput := .rank3 1 5 1 [[[1/2], [1/2], [1/5], [1/5], [3/10]]]

def outC2low : Detection := ⟨0, "Unknown_0", 3/10, 40, 40, 60, 60⟩

def inC3 : List RawOutput := [.rank3 1 1 6 [[[1/2, 1/2, 1/5, 1/5, 9/10, 3]]]]

def outC3 : Detection := ⟨3, "Unknown_3", 9/10, 40, 80, 60, 120⟩

def inC4rank2 : List RawOutput := [.rank2 [[1/2, 1/2, 1/5, 1/5, 9/10, 3]]]

def inC4rank4 : List RawOutput := [.rank4 [[[[1/2]]]]]

def inC4rank1 : List RawOutput := [.rank1 [1/2]]

def inC4multi : List RawOutput :=
  [.rank3 1 1 6 [[[1/2, 1/2, 1/5, 1/5, 9/10, 3]]],
   .rank3 1 1 6 [[[1/2, 1/2, 1/5, 1/5, 9/10, 3]]]]

def inC4v10 : List RawOutput :=
  [.rank3 1 1 10 [[[1/2, 1/2, 1/5, 1/5, 9/10, 5, 0, 0, 0, 0]]]]

def outC4v10 : Detection := ⟨5, "Unknown_5", 9/10, 40, 40, 60, 60⟩

def rowC4v85 : List ℚ :=
  1/2 :: 1/2 :: 1/5 :: 1/5 :: 4/5 :: 0 :: 0 :: 9/10 :: List.replicate 77 0

def inC4v85 : List RawOutput := [.rank3 1 1 85 [[rowC4v85]]]

def outC4v85 : Detection := ⟨2, "Unknown_2", 18/25, 40, 40, 60, 60⟩

def inC4cf : RawOutput := .rank3 1 6 1 [[[1/2], [1/2], [1/5], [1/5], [1/5], [4/5]]]

def outC4cf : Detection := ⟨1, "Unknown_1", 4/5, 40, 40, 60, 60⟩

/-! ## Arithmetic lemmas for `roundHalfEven` / `pyRound` -/

theorem roundHalfEven_intCast (k : ℤ) : roundHalfEven (k : ℚ) = k := by
  unfold roundHalfEven
  rw [Int.floor_intCast]
  norm_num

theorem roundHalfEven_eq_down (x : ℚ) (k : ℤ) (h1 : (k : ℚ) ≤ x) (h2 : x < k + 1/2) :
    roundHalfEven x = k := by
  have hf : ⌊x⌋ = k := Int.floor_eq_iff.mpr ⟨h1, by linarith⟩
  unfold roundHalfEven
  rw [hf, if_pos (by linarith)]

theorem roundHalfEven_eq_up (x : ℚ) (k : ℤ) (h1 : (k : ℚ) + 1/2 < x) (h2 : x < k + 1) :
    roundHalfEven x = k + 1 := by
  have hf : ⌊x⌋ = k := Int.floor_eq_iff.mpr ⟨by linarith, h2⟩
  unfold roundHalfEven
  rw [hf, if_neg (by linarith), if_pos (by linarith)]

theorem floor_le_roundHalfEven (x : ℚ) : ⌊x⌋ ≤ roundHalfEven x := by
  unfold roundHalfEven
  split_ifs <;> omega

theorem roundHalfEven_le_floor_add_one (x : ℚ) : roundHalfEven x ≤ ⌊x⌋ + 1 := by
  unfold roundHalfEven
  split_ifs <;> omega

theorem roundHalfEven_mono {x y : ℚ} (h : x ≤ y) : roundHalfEven x ≤ roundHalfEven y := by
  have hf : ⌊x⌋ ≤ ⌊y⌋ := Int.floor_le_floor h
  by_cases hlt : ⌊x⌋ < ⌊y⌋
  · have h1 := roundHalfEven_le_floor_add_one x
    have h2 := floor_le_roundHalfEven y
    omega
  · have he : ⌊y⌋ = ⌊x⌋ := le_antisymm (not_lt.mp hlt) hf
    unfold roundHalfEven
    rw [he]
    split_ifs <;> first
      | omega
      | (exfalso; rw [he] at *; linarith [Int.le_floor.mp (le_refl ⌊x⌋)])

/-- Monotonicity of `pyRound`. -/
theorem pyRound_mono (n : ℕ) {x y : ℚ} (h : x ≤ y) : pyRound n x ≤ pyRound n y := by
  unfold pyRound
  have hp : (0 : ℚ) ≤ 10 ^ n := by positivity
  have hm : roundHalfEven (x * 10 ^ n) ≤ roundHalfEven (y * 10 ^ n) :=
    roundHalfEven_mono (by nlinarith)
  exact div_le_div_of_nonneg_right (by exact_mod_cast hm) hp

/-- Exact grid points are fixed by `pyRound`. -/
theorem pyRound_of_int (n : ℕ) (x : ℚ) (k : ℤ) (h : x * 10 ^ n = (k : ℚ)) :
    pyRound n x = x := by
  unfold pyRound
  rw [h, roundHalfEven_intCast, ← h]
  field_simp

/-- Values below an integer stay below it under `pyRound`. -/
theorem pyRound_le_intCast (n : ℕ) (x : ℚ) (k : ℤ) (h : x ≤ (k : ℚ)) :
    pyRound n x ≤ (k : ℚ) := by
  have h0 : (k : ℚ) * 10 ^ n = ((k * 10 ^ n : ℤ) : ℚ) := by push_cast; ring
  have := pyRound_mono n h
  rw [pyRound_of_int n (k : ℚ) (k * 10 ^ n) h0] at this
  exact this

theorem intCast_le_pyRound (n : ℕ) (x : ℚ) (k : ℤ) (h : (k : ℚ) ≤ x) :
    (k : ℚ) ≤ pyRound n x := by
  have h0 : (k : ℚ) * 10 ^ n = ((k * 10 ^ n : ℤ) : ℚ) := by push_cast; ring
  have := pyRound_mono n h
  rw [pyRound_of_int n (k : ℚ) (k * 10 ^ n) h0] at this
  exact this

theorem clampQ_nonneg (x hi : ℚ) : 0 ≤ clampQ x hi := le_max_left 0 _

theorem clampQ_le (x hi : ℚ) (h : 0 ≤ hi) : clampQ x hi ≤ hi :=
  max_le h (min_le_right x hi)

/-! ## C10 — upload validation accepts beyond the configured allow-list -/

/-- C10: the function `validate_image` accepts uploads beyond `config.ALLOWED_FILE_TYPES`:
every content type in the hardcoded `extra_types` list (none of which is in
the configured allow-list) is accepted regardless of filename; any filename
whose extension lowercases into the hardcoded `allowed_exts` list is
accepted regardless of content type; and an upload reporting no size is
never rejected with the size error. -/
theorem C10_validate_beyond_allowlist :
    (∀ ct, ct ∈ extra_types →
      ct ∉ (Config.ALLOWED_FILE_TYPES.map fun t => pyStrip (pyLower t)) ∧
      ∀ fn, validate_image (some ct) fn none = .ok ()) ∧
    (∀ ct fn, pyLower (splitextExt fn) ∈ allowed_exts →
      validate_image ct (some fn) none = .ok ()) ∧
    (∀ ct fn, validate_image ct fn none ≠ .error ⟨400, "File size too large"⟩) := by
  refine ⟨?_, ?_, ?_⟩
  · intro ct hct
    fin_cases hct <;>
      exact ⟨by decide, fun fn => by
        simp only [validate_image]
        rw [if_pos (by decide)]
        rfl⟩
  · intro ct fn h
    simp only [validate_image]
    split_ifs with h1 h2
    · rfl
    · rfl
    · exact absurd h h2
  · intro ct fn
    simp only [validate_image]
    split_ifs <;> simp [checkSize]

/-- Witness for C10 at concrete uploads: `image/webp` (not in the configured
list) is accepted, and so is a `.gif` filename with a foreign content type. -/
theorem C10_validate_beyond_allowlist_witness :
    ("image/webp" ∈ extra_types) ∧
    validate_image (some "image/webp") (some "photo.bin") none = .ok () ∧
    (pyLower (splitextExt "photo.GIF") ∈ allowed_exts) ∧
    validate_image (some "application/octet-stream") (some "photo.GIF") none = .ok () :=
  ⟨by decide,
   (C10_validate_beyond_allowlist.1 "image/webp" (by decide)).2 (some "photo.bin"),
   by decide,
   C10_validate_beyond_allowlist.2.1 (some "application/octet-stream") "photo.GIF" (by decide)⟩

/-! ## C9 — unknown model keys: 400, not 404, on the acquisition paths -/

/-- C9 counterexample: acquiring the unregistered key `"birds"` through
`get_model` fails with status **400** (`initialize_model_resources` raises
`HTTPException(status_code=400, …)`), not the claimed not-found 404. -/
theorem C9_unknown_key_counterexample :
    (get_model true true "birds" MS.init).1 =
      .error ⟨400, "Invalid model type: " ++ "birds"⟩ ∧
    (400 : ℕ) ≠ 404 := by
  constructor
  · decide
  · decide

/-- C9 amended: an unregistered, uncached key fails with status 400 on every
`get_*` acquisition path (via `initialize_model_resources`); only the direct
`load_model` / `load_labels` / `load_metadata` calls map the missing key to
404. -/
theorem C9_unknown_key_status :
    ∀ k s, k ∉ hf_urls →
      (s.models_cache.lookup k = none →
        (get_model true true k s).1 = .error ⟨400, "Invalid model type: " ++ k⟩ ∧
        (load_model k s).1 = .error ⟨404, "Model type not found"⟩) ∧
      (s.labels_cache.lookup k = none →
        (get_labels true true k s).1 = .error ⟨400, "Invalid model type: " ++ k⟩ ∧
        (load_labels true k s).1 = .error ⟨404, "Model type not found"⟩) ∧
      (s.metadata_cache.lookup k = none →
        (get_metadata true true k s).1 = .error ⟨400, "Invalid model type: " ++ k⟩ ∧
        (load_metadata true k s).1 = .error ⟨404, "Model type not found"⟩) := by
  intro k s hk
  refine ⟨fun h => ⟨?_, ?_⟩, fun h => ⟨?_, ?_⟩, fun h => ⟨?_, ?_⟩⟩
  · simp only [get_model, h, initResources, if_neg hk]
  · simp only [load_model, h, if_neg hk]
  · simp only [get_labels, h, initResources, if_neg hk]
  · simp only [load_labels, h, if_neg hk]
  · simp only [get_metadata, h, initResources, if_neg hk]
  · simp only [load_metadata, h, if_neg hk]

/-- Witness for C9 at the concrete key `"birds"` and the fresh service. -/
theorem C9_unknown_key_status_witness :
    ("birds" ∉ hf_urls) ∧ MS.init.models_cache.lookup "birds" = none ∧
    (get_model true true "birds" MS.init).1 =
      .error ⟨400, "Invalid model type: " ++ "birds"⟩ :=
  ⟨by decide, by decide,
   ((C9_unknown_key_status "birds" MS.init (by decide)).1 (by decide)).1⟩

/-! ## C8 — scratch files are not released on every exit path -/

/-- C8 counterexample: a labels parse failure for a fresh service leaves the
downloaded scratch file (id 0) live, and a successful model load also
retains its scratch file — both contradict "the scratch location is
guaranteed released on every exit path". -/
theorem C8_scratch_leak_counterexample :
    (load_labels false "cats" MS.init).1 = .error ⟨500, "Invalid JSON in labels file"⟩ ∧
    (load_labels false "cats" MS.init).2.liveTmp = [0] ∧
    (load_model "cats" MS.init).1 = .ok 0 ∧
    (load_model "cats" MS.init).2.liveTmp = [0] := by
  refine ⟨by decide, by decide, by decide, by decide⟩

/-- C8 amended: the scratch file is deleted only on the success path of the
label and metadata loads; a parse failure leaks it, and `load_model`
deliberately retains its scratch file even on success. -/
theorem C8_scratch_release :
    ∀ s k, k ∈ hf_urls →
      (s.labels_cache.lookup k = none →
        (load_labels true k s).2.liveTmp = s.liveTmp ∧
        (load_labels false k s).2.liveTmp = s.nextTmp :: s.liveTmp ∧
        (load_labels false k s).1 = .error ⟨500, "Invalid JSON in labels file"⟩) ∧
      (s.metadata_cache.lookup k = none →
        (load_metadata true k s).2.liveTmp = s.liveTmp ∧
        (load_metadata false k s).2.liveTmp = s.nextTmp :: s.liveTmp) ∧
      (s.models_cache.lookup k = none →
        (load_model k s).1 = .ok s.nextTmp ∧
        (load_model k s).2.liveTmp = s.nextTmp :: s.liveTmp) := by
  intro s k hk
  refine ⟨fun h => ⟨?_, ?_, ?_⟩, fun h => ⟨?_, ?_⟩, fun h => ⟨?_, ?_⟩⟩
  · simp [load_labels, h, if_pos hk, download_file]
  · simp [load_labels, h, if_pos hk, download_file]
  · simp [load_labels, h, if_pos hk, download_file]
  · simp [load_metadata, h, if_pos hk, download_file]
  · simp [load_metadata, h, if_pos hk, download_file]
  · simp [load_model, h, if_pos hk, download_file]
  · simp [load_model, h, if_pos hk, download_file]

/-- Witness for C8 at the concrete key `"cats"` and the fresh service. -/
theorem C8_scratch_release_witness :
    ("cats" ∈ hf_urls) ∧ MS.init.labels_cache.lookup "cats" = none ∧
    (load_labels true "cats" MS.init).2.liveTmp = MS.init.liveTmp :=
  ⟨by decide, by decide,
   ((C8_scratch_release MS.init "cats" (by decide)).1 (by decide)).1⟩

/-! ## C6 — cache identity, exactly-once fetching, no eviction -/

theorem lookup_eraseP_ne (l : List (String × ℕ)) (k k' : String) (h : k ≠ k') :
    (l.eraseP fun p => p.1 == k').lookup k = l.lookup k := by
  induction l with
  | nil => rfl
  | cons a tl ih =>
    obtain ⟨a1, a2⟩ := a
    by_cases ha : a1 = k'
    · subst ha
      have hb : (k == a1) = false := beq_eq_false_iff_ne.mpr h
      simp [List.eraseP_cons, List.lookup, hb]
    · have hb : (a1 == k') = false := beq_eq_false_iff_ne.mpr ha
      simp [List.eraseP_cons, List.lookup, hb, ih]

theorem lookup_dinsert_ne (l : List (String × ℕ)) (k k' : String) (v : ℕ) (h : k ≠ k') :
    (dinsert l k' v).lookup k = l.lookup k := by
  have hb : (k == k') = false := beq_eq_false_iff_ne.mpr h
  simp [dinsert, List.lookup, hb, lookup_eraseP_ne l k k' h]

theorem countFetch_download_ne (k' k : String) (a' a : Artifact) (s : MS)
    (hne : k' ≠ k) :
    countFetch { s with nextTmp := s.nextTmp + 1,
                        liveTmp := s.nextTmp :: s.liveTmp,
                        fetchLog := (k', a') :: s.fetchLog } k a = countFetch s k a := by
  have hpair : ¬(((k', a') : String × Artifact) = (k, a)) :=
    fun hh => hne (congrArg Prod.fst hh)
  simp [countFetch, List.count_cons, hpair]

theorem load_model_frame (k' k : String) (vm vl vd : ℕ) (hne : k' ≠ k) (s : MS)
    (h : Snapshot k vm vl vd s) :
    Snapshot k vm vl vd (load_model k' s).2 ∧
    ∀ a, countFetch (load_model k' s).2 k a = countFetch s k a := by
  obtain ⟨h1, h2, h3⟩ := h
  unfold load_model
  cases hm : s.models_cache.lookup k' with
  | some m => exact ⟨⟨h1, h2, h3⟩, fun a => rfl⟩
  | none =>
    by_cases hin : k' ∈ hf_urls
    · simp only [if_pos hin, download_file]
      exact ⟨⟨by simpa [lookup_dinsert_ne _ k k' _ hne.symm] using h1, h2, h3⟩,
        fun a => countFetch_download_ne k' k .model a s hne⟩
    · simp only [if_neg hin]
      exact ⟨⟨h1, h2, h3⟩, by simp⟩

theorem load_labels_frame (pl : Bool) (k' k : String) (vm vl vd : ℕ) (hne : k' ≠ k)
    (s : MS) (h : Snapshot k vm vl vd s) :
    Snapshot k vm vl vd (load_labels pl k' s).2 ∧
    ∀ a, countFetch (load_labels pl k' s).2 k a = countFetch s k a := by
  obtain ⟨h1, h2, h3⟩ := h
  unfold load_labels
  cases hm : s.labels_cache.lookup k' with
  | some v => exact ⟨⟨h1, h2, h3⟩, fun a => rfl⟩
  | none =>
    by_cases hin : k' ∈ hf_urls
    · cases pl with
      | true =>
        simp only [if_pos hin, download_file]
        exact ⟨⟨h1, by simpa [lookup_dinsert_ne _ k k' _ hne.symm] using h2, h3⟩,
          fun a => countFetch_download_ne k' k .labels a s hne⟩
      | false =>
        simp only [if_pos hin, download_file]
        exact ⟨⟨h1, h2, h3⟩, fun a => countFetch_download_ne k' k .labels a s hne⟩
    · simp only [if_neg hin]
      exact ⟨⟨h1, h2, h3⟩, by simp⟩

theorem load_metadata_frame (pm : Bool) (k' k : String) (vm vl vd : ℕ) (hne : k' ≠ k)
    (s : MS) (h : Snapshot k vm vl vd s) :
    Snapshot k vm vl vd (load_metadata pm k' s).2 ∧
    ∀ a, countFetch (load_metadata pm k' s).2 k a = countFetch s k a := by
  obtain ⟨h1, h2, h3⟩ := h
  unfold load_metadata
  cases hm : s.metadata_cache.lookup k' with
  | some v => exact ⟨⟨h1, h2, h3⟩, fun a => rfl⟩
  | none =>
    by_cases hin : k' ∈ hf_urls
    · cases pm with
      | true =>
        simp only [if_pos hin, download_file]
        exact ⟨⟨h1, h2, by simpa [lookup_dinsert_ne _ k k' _ hne.symm] using h3⟩,
          fun a => countFetch_download_ne k' k .metadata a s hne⟩
      | false =>
        simp only [if_pos hin, download_file]
        exact ⟨⟨h1, h2, h3⟩, fun a => countFetch_download_ne k' k .metadata a s hne⟩
    · simp only [if_neg hin]
      exact ⟨⟨h1, h2, h3⟩, by simp⟩

theorem ensureModel_frame (k' k : String) (vm vl vd : ℕ) (hne : k' ≠ k) (s : MS)
    (h : Snapshot k vm vl vd s) :
    Snapshot k vm vl vd (ensureModel k' s).2 ∧
    ∀ a, countFetch (ensureModel k' s).2 k a = countFetch s k a := by
  unfold ensureModel
  cases hm : s.models_cache.lookup k' with
  | some v => exact ⟨h, fun a => rfl⟩
  | none =>
    have hl := load_model_frame k' k vm vl vd hne s h
    rcases hr : load_model k' s with ⟨e | m, s1⟩ <;> rw [hr] at hl <;> simp only []
    · exact hl
    · exact ⟨⟨by simpa [lookup_dinsert_ne _ k k' _ hne.symm] using hl.1.1,
        hl.1.2.1, hl.1.2.2⟩, hl.2⟩

theorem ensureLabels_frame (pl : Bool) (k' k : String) (vm vl vd : ℕ) (hne : k' ≠ k)
    (s : MS) (h : Snapshot k vm vl vd s) :
    Snapshot k vm vl vd (ensureLabels pl k' s).2 ∧
    ∀ a, countFetch (ensureLabels pl k' s).2 k a = countFetch s k a := by
  unfold ensureLabels
  cases hm : s.labels_cache.lookup k' with
  | some v => exact ⟨h, fun a => rfl⟩
  | none =>
    have hl := load_labels_frame pl k' k vm vl vd hne s h
    rcases hr : load_labels pl k' s with ⟨e | v, s1⟩ <;> rw [hr] at hl <;> simp only []
    · exact hl
    · exact ⟨⟨hl.1.1, by simpa [lookup_dinsert_ne _ k k' _ hne.symm] using hl.1.2.1,
        hl.1.2.2⟩, hl.2⟩

theorem ensureMetadata_frame (pm : Bool) (k' k : String) (vm vl vd : ℕ) (hne : k' ≠ k)
    (s : MS) (h : Snapshot k vm vl vd s) :
    Snapshot k vm vl vd (ensureMetadata pm k' s).2 ∧
    ∀ a, countFetch (ensureMetadata pm k' s).2 k a = countFetch s k a := by
  unfold ensureMetadata
  cases hm : s.metadata_cache.lookup k' with
  | some v => exact ⟨h, fun a => rfl⟩
  | none =>
    have hl := load_metadata_frame pm k' k vm vl vd hne s h
    rcases hr : load_metadata pm k' s with ⟨e | v, s1⟩ <;> rw [hr] at hl <;> simp only []
    · exact hl
    · exact ⟨⟨hl.1.1, hl.1.2.1,
        by simpa [lookup_dinsert_ne _ k k' _ hne.symm] using hl.1.2.2⟩, hl.2⟩

theorem initResources_frame (pl pm : Bool) (k' k : String) (vm vl vd : ℕ)
    (hne : k' ≠ k) (s : MS) (h : Snapshot k vm vl vd s) :
    Snapshot k vm vl vd (initResources pl pm k' s).2 ∧
    ∀ a, countFetch (initResources pl pm k' s).2 k a = countFetch s k a := by
  unfold initResources
  by_cases hin : k' ∈ hf_urls
  · rw [if_pos hin]
    have e1 := ensureModel_frame k' k vm vl vd hne s h
    rcases h1 : ensureModel k' s with ⟨r1 | u1, s1⟩ <;> rw [h1] at e1 <;> simp only []
    · exact e1
    · have e2 := ensureLabels_frame pl k' k vm vl vd hne s1 e1.1
      rcases h2 : ensureLabels pl k' s1 with ⟨r2 | u2, s2⟩ <;> rw [h2] at e2 <;> simp only []
      · exact ⟨e2.1, fun a => (e2.2 a).trans (e1.2 a)⟩
      · have e3 := ensureMetadata_frame pm k' k vm vl vd hne s2 e2.1
        exact ⟨e3.1, fun a => ((e3.2 a).trans (e2.2 a)).trans (e1.2 a)⟩
  · rw [if_neg hin]
    exact ⟨h, fun a => rfl⟩

theorem get_model_state (pl pm : Bool) (k' : String) (s : MS) :
    (get_model pl pm k' s).2 =
      if (s.models_cache.lookup k').isSome then s else (initResources pl pm k' s).2 := by
  unfold get_model
  cases hm : s.models_cache.lookup k' with
  | some m => simp
  | none =>
    rcases hr : initResources pl pm k' s with ⟨e | u, s1⟩
    · simp [hr]
    · cases hm1 : s1.models_cache.lookup k' <;> simp [hr, hm1]

theorem get_labels_state (pl pm : Bool) (k' : String) (s : MS) :
    (get_labels pl pm k' s).2 =
      if (s.labels_cache.lookup k').isSome then s else (initResources pl pm k' s).2 := by
  unfold get_labels
  cases hm : s.labels_cache.lookup k' with
  | some m => simp
  | none =>
    rcases hr : initResources pl pm k' s with ⟨e | u, s1⟩
    · simp [hr]
    · cases hm1 : s1.labels_cache.lookup k' <;> simp [hr, hm1]

theorem get_metadata_state (pl pm : Bool) (k' : String) (s : MS) :
    (get_metadata pl pm k' s).2 =
      if (s.metadata_cache.lookup k').isSome then s else (initResources pl pm k' s).2 := by
  unfold get_metadata
  cases hm : s.metadata_cache.lookup k' with
  | some m => simp
  | none =>
    rcases hr : initResources pl pm k' s with ⟨e | u, s1⟩
    · simp [hr]
    · cases hm1 : s1.metadata_cache.lookup k' <;> simp [hr, hm1]

theorem run1_frame (op : Op) (s : MS) (k : String) (vm vl vd : ℕ)
    (h : Snapshot k vm vl vd s) :
    Snapshot k vm vl vd (run1 op s) ∧
    ∀ a, countFetch (run1 op s) k a = countFetch s k a := by
  cases op with
  | gm pl pm k' =>
    simp only [run1]
    rw [get_model_state]
    by_cases hk : k' = k
    · subst hk
      rw [if_pos (by simp [h.1])]
      exact ⟨h, fun a => rfl⟩
    · by_cases hm : (s.models_cache.lookup k').isSome
      · rw [if_pos hm]; exact ⟨h, fun a => rfl⟩
      · rw [if_neg hm]; exact initResources_frame pl pm k' k vm vl vd hk s h
  | gl pl pm k' =>
    simp only [run1]
    rw [get_labels_state]
    by_cases hk : k' = k
    · subst hk
      rw [if_pos (by simp [h.2.1])]
      exact ⟨h, fun a => rfl⟩
    · by_cases hm : (s.labels_cache.lookup k').isSome
      · rw [if_pos hm]; exact ⟨h, fun a => rfl⟩
      · rw [if_neg hm]; exact initResources_frame pl pm k' k vm vl vd hk s h
  | gmd pl pm k' =>
    simp only [run1]
    rw [get_metadata_state]
    by_cases hk : k' = k
    · subst hk
      rw [if_pos (by simp [h.2.2])]
      exact ⟨h, fun a => rfl⟩
    · by_cases hm : (s.metadata_cache.lookup k').isSome
      · rw [if_pos hm]; exact ⟨h, fun a => rfl⟩
      · rw [if_neg hm]; exact initResources_frame pl pm k' k vm vl vd hk s h

theorem run_frame (ops : List Op) (s : MS) (k : String) (vm vl vd : ℕ)
    (h : Snapshot k vm vl vd s) :
    Snapshot k vm vl vd (run ops s) ∧
    ∀ a, countFetch (run ops s) k a = countFetch s k a := by
  induction ops generalizing s with
  | nil => exact ⟨h, fun a => rfl⟩
  | cons op ops ih =>
    have h1 := run1_frame op s k vm vl vd h
    have h2 := ih (run1 op s) h1.1
    exact ⟨h2.1, fun a => (h2.2 a).trans (h1.2 a)⟩

/-- C6: for every registered key, the first `get_model` populates the whole
bundle with exactly one fetch per artifact; a second `get_model` (and
`get_labels`, `get_metadata`) returns exactly the same cached object without
touching the state; and over the rest of the process lifetime — any further
sequence of service calls with any keys and any parse outcomes — the cached
entries are never replaced or evicted and the per-artifact fetch count for
the key stays exactly one. -/
theorem C6_cache_identity :
    ∀ k, k ∈ hf_urls →
    ∃ m lb md s1,
      get_model true true k MS.init = (.ok m, s1) ∧
      get_model true true k s1 = (.ok m, s1) ∧
      get_labels true true k s1 = (.ok lb, s1) ∧
      get_metadata true true k s1 = (.ok md, s1) ∧
      countFetch s1 k .model = 1 ∧ countFetch s1 k .labels = 1 ∧
      countFetch s1 k .metadata = 1 ∧
      ∀ ops : List Op,
        (run ops s1).models_cache.lookup k = some m ∧
        (run ops s1).labels_cache.lookup k = some lb ∧
        (run ops s1).metadata_cache.lookup k = some md ∧
        countFetch (run ops s1) k .model = 1 ∧
        countFetch (run ops s1) k .labels = 1 ∧
        countFetch (run ops s1) k .metadata = 1 := by
  intro k hk
  have hk2 : k = "cats" ∨ k = "dogs" := by
    simpa [hf_urls] using hk
  rcases hk2 with hk2 | hk2 <;> subst hk2
  · refine ⟨0, 1, 2, (get_model true true "cats" MS.init).2, by decide, by decide,
      by decide, by decide, by decide, by decide, by decide, fun ops => ?_⟩
    have hs : Snapshot "cats" 0 1 2 (get_model true true "cats" MS.init).2 :=
      ⟨by decide, by decide, by decide⟩
    have h := run_frame ops _ "cats" 0 1 2 hs
    exact ⟨h.1.1, h.1.2.1, h.1.2.2, by rw [h.2]; decide, by rw [h.2]; decide,
      by rw [h.2]; decide⟩
  · refine ⟨0, 1, 2, (get_model true true "dogs" MS.init).2, by decide, by decide,
      by decide, by decide, by decide, by decide, by decide, fun ops => ?_⟩
    have hs : Snapshot "dogs" 0 1 2 (get_model true true "dogs" MS.init).2 :=
      ⟨by decide, by decide, by decide⟩
    have h := run_frame ops _ "dogs" 0 1 2 hs
    exact ⟨h.1.1, h.1.2.1, h.1.2.2, by rw [h.2]; decide, by rw [h.2]; decide,
      by rw [h.2]; decide⟩

/-! ## C7 — no single-flight: concurrent first-time callers both fetch -/

theorem stepT_one_inv (cache : Option ℕ) (f : ℕ) (t other : Th)
    (h1 : f = fetched t + fetched other)
    (h2 : t.pc ≤ 1 → t.obj = 0)
    (h4 : t.pc = 2 ∨ t.pc = 3 → t.obj ≠ 0)
    (h6 : t.pc = 3 → cache.isSome)
    (h8 : cache.isSome → 1 ≤ f)
    (h9 : t.pc = 4 → t.res.isSome ∧ 1 ≤ f)
    (h11 : t.pc ≤ 4) :
    (stepT cache f t).2.1 = fetched (stepT cache f t).2.2 + fetched other ∧
    ((stepT cache f t).2.2.pc ≤ 1 → (stepT cache f t).2.2.obj = 0) ∧
    ((stepT cache f t).2.2.pc = 2 ∨ (stepT cache f t).2.2.pc = 3 →
      (stepT cache f t).2.2.obj ≠ 0) ∧
    ((stepT cache f t).2.2.pc = 3 → (stepT cache f t).1.isSome) ∧
    ((stepT cache f t).1.isSome → 1 ≤ (stepT cache f t).2.1) ∧
    ((stepT cache f t).2.2.pc = 4 →
      (stepT cache f t).2.2.res.isSome ∧ 1 ≤ (stepT cache f t).2.1) ∧
    (stepT cache f t).2.2.pc ≤ 4 ∧
    f ≤ (stepT cache f t).2.1 ∧
    (cache.isSome → (stepT cache f t).1.isSome) := by
  obtain ⟨pc, obj, res⟩ := t
  simp only at h1 h2 h4 h6 h9 h11
  interval_cases pc
  · cases cache with
    | some v =>
      have ht : obj = 0 := h2 (by omega)
      subst ht
      refine ⟨by simpa [stepT, fetched] using h1, by simp [stepT], by simp [stepT],
        by simp [stepT], fun _ => h8 (by simp), fun _ => ⟨by simp [stepT], h8 (by simp)⟩,
        by simp [stepT], by simp [stepT], by simp [stepT]⟩
    | none =>
      have ht : obj = 0 := h2 (by omega)
      subst ht
      refine ⟨by simpa [stepT, fetched] using h1, by simp [stepT], by simp [stepT],
        by simp [stepT], by simp [stepT], by simp [stepT], by simp [stepT],
        by simp [stepT], by simp [stepT]⟩
  · have ht : obj = 0 := h2 (by omega)
    subst ht
    refine ⟨?_, by simp [stepT, fetched], by simp [stepT, fetched], by simp [stepT],
      ?_, by simp [stepT], by simp [stepT], by simp [stepT], ?_⟩
    · simp only [stepT, fetched] at h1 ⊢
      simp at h1
      simp
      omega
    · intro hs
      simp [stepT]
    · intro hs
      simpa [stepT] using hs
  · have ht : obj ≠ 0 := h4 (by omega)
    refine ⟨by simpa [stepT, fetched] using h1, by simp [stepT], by simp [stepT, ht],
      by simp [stepT], ?_, by simp [stepT], by simp [stepT], by simp [stepT],
      by simp [stepT]⟩
    · intro _
      simp only [stepT]
      have hf : fetched { pc := 2, obj := obj, res := res } = 1 := by simp [fetched, ht]
      rw [hf] at h1
      omega
  · have hc := h6 rfl
    refine ⟨by simpa [stepT, fetched] using h1, by simp [stepT], by simp [stepT],
      by simp [stepT], by simpa [stepT] using h8, ?_, by simp [stepT],
      by simp [stepT], by simpa [stepT] using fun hs => hs⟩
    · intro _
      simp only [stepT]
      exact ⟨by simpa using hc, h8 hc⟩
  · refine ⟨by simpa [stepT, fetched] using h1, by simpa [stepT] using h2,
      by simpa [stepT] using h4, by simpa [stepT] using h6, by simpa [stepT] using h8,
      by simpa [stepT] using h9, by simpa [stepT] using h11, by simp [stepT],
      by simpa [stepT] using fun hs => hs⟩

theorem stepS_inv (s : Sys) (w : Bool) (h : SysInv s) : SysInv (stepS s w) := by
  obtain ⟨h1, h2a, h2b, h4a, h4b, h6a, h6b, h8, h9a, h9b, h11a, h11b⟩ := h
  cases w with
  | true =>
    have hone := stepT_one_inv s.cache s.fetches s.a s.b h1 h2a h4a h6a h8 h9a h11a
    obtain ⟨k1, k2, k4, k6, k8, k9, k11, kmono, kcache⟩ := hone
    refine ⟨k1, k2, h2b, k4, h4b, k6, ?_, k8, k9, ?_, k11, h11b⟩
    · exact fun hb => kcache (h6b hb)
    · exact fun hb => ⟨(h9b hb).1, le_trans (h9b hb).2 kmono⟩
  | false =>
    have hone := stepT_one_inv s.cache s.fetches s.b s.a (by omega) h2b h4b h6b h8 h9b h11b
    obtain ⟨k1, k2, k4, k6, k8, k9, k11, kmono, kcache⟩ := hone
    refine ⟨?_, h2a, k2, h4a, k4, ?_, k6, k8, ?_, k9, h11a, k11⟩
    · show (stepT s.cache s.fetches s.b).2.1 =
        fetched s.a + fetched (stepT s.cache s.fetches s.b).2.2
      omega
    · exact fun ha => kcache (h6a ha)
    · exact fun ha => ⟨(h9a ha).1, le_trans (h9a ha).2 kmono⟩

theorem exec_inv (sched : List Bool) (s : Sys) (h : SysInv s) : SysInv (exec sched s) := by
  induction sched generalizing s with
  | nil => exact h
  | cons w ws ih => exact ih (stepS s w) (stepS_inv s w h)

/-- C7 counterexample: with the racing schedule below, both callers observe
the key unpopulated, both start a fetch (two fetch sequences for one key),
and they complete with *different* bundle objects — contradicting "at most
one fetch sequence is ever started" and "all N calls complete with the same
bundle". -/
theorem C7_race_counterexample :
    (exec [true, false, true, true, true, false, false, false] Sys.init).fetches = 2 ∧
    (exec [true, false, true, true, true, false, false, false] Sys.init).a.pc = 4 ∧
    (exec [true, false, true, true, true, false, false, false] Sys.init).b.pc = 4 ∧
    (exec [true, false, true, true, true, false, false, false] Sys.init).a.res = some 1 ∧
    (exec [true, false, true, true, true, false, false, false] Sys.init).b.res = some 2 ∧
    ¬((exec [true, false, true, true, true, false, false, false] Sys.init).a.res =
      (exec [true, false, true, true, true, false, false, false] Sys.init).b.res) := by
  refine ⟨by decide, by decide, by decide, by decide, by decide, by decide⟩

/-- C7 amended: with the unsynchronised check-then-fetch of
`ModelService.get_model`, each concurrent first-time caller that observes
the key unpopulated starts its own fetch: over every schedule at most one
fetch per caller (so at most two) is started, every schedule on which both
callers complete performs at least one fetch and hands each caller a
bundle — but the callers may receive different bundles, and only a
serialized second caller is guaranteed to reuse the first caller's bundle
without a new fetch. -/
theorem C7_no_single_flight :
    (∀ sched : List Bool,
      (exec sched Sys.init).fetches ≤ 2 ∧
      ((exec sched Sys.init).a.pc = 4 → (exec sched Sys.init).b.pc = 4 →
        1 ≤ (exec sched Sys.init).fetches ∧
        (exec sched Sys.init).a.res.isSome ∧ (exec sched Sys.init).b.res.isSome)) ∧
    (exec [true, true, true, true, false] Sys.init).fetches = 1 ∧
    (exec [true, true, true, true, false] Sys.init).a.res = some 1 ∧
    (exec [true, true, true, true, false] Sys.init).b.res = some 1 := by
  refine ⟨fun sched => ?_, by decide, by decide, by decide⟩
  have h := exec_inv sched Sys.init (by
    refine ⟨by decide, by decide, by decide, by decide, by decide, by decide, by decide,
      by decide, by decide, by decide, by decide, by decide⟩)
  obtain ⟨h1, _, _, _, _, _, _, _, h9a, h9b, _, _⟩ := h
  constructor
  · rw [h1]
    unfold fetched
    split_ifs <;> omega
  · intro ha hb
    exact ⟨(h9a ha).2, (h9a ha).1, (h9b hb).1⟩

/-- Witness for C7 at the serialized schedule: both callers complete, at
least one and at most two fetches happened. -/
theorem C7_no_single_flight_witness :
    (exec [true, true, true, true, false] Sys.init).fetches ≤ 2 ∧
    1 ≤ (exec [true, true, true, true, false] Sys.init).fetches ∧
    (exec [true, true, true, true, false] Sys.init).a.res.isSome ∧
    (exec [true, true, true, true, false] Sys.init).b.res.isSome :=
  ⟨(C7_no_single_flight.1 [true, true, true, true, false]).1,
   (C7_no_single_flight.1 [true, true, true, true, false]).2 (by decide) (by decide)⟩

/-- Witness for C6 at the concrete key `"cats"`. -/
theorem C6_cache_identity_witness :
    ("cats" ∈ hf_urls) ∧
    (∃ m lb md s1,
      get_model true true "cats" MS.init = (.ok m, s1) ∧
      get_model true true "cats" s1 = (.ok m, s1) ∧
      get_labels true true "cats" s1 = (.ok lb, s1) ∧
      get_metadata true true "cats" s1 = (.ok md, s1) ∧
      countFetch s1 "cats" .model = 1 ∧ countFetch s1 "cats" .labels = 1 ∧
      countFetch s1 "cats" .metadata = 1 ∧
      ∀ ops : List Op,
        (run ops s1).models_cache.lookup "cats" = some m ∧
        (run ops s1).labels_cache.lookup "cats" = some lb ∧
        (run ops s1).metadata_cache.lookup "cats" = some md ∧
        countFetch (run ops s1) "cats" .model = 1 ∧
        countFetch (run ops s1) "cats" .labels = 1 ∧
        countFetch (run ops s1) "cats" .metadata = 1) :=
  ⟨by decide, C6_cache_identity "cats" (by decide)⟩


/-! ## Row-level lemmas for the decoders -/

theorem mem_decodeRows (f : List ℚ → Except HTTPError (Option Detection))
    (rows : List (List ℚ)) (l : List Detection) (d : Detection)
    (h : decodeRows f rows = .ok l) (hd : d ∈ l) :
    ∃ r ∈ rows, f r = .ok (some d) := by
  induction rows generalizing l with
  | nil =>
    simp only [decodeRows, Except.ok.injEq] at h
    subst h
    exact absurd hd (List.not_mem_nil d)
  | cons r rs ih =>
    simp only [decodeRows] at h
    cases hf : f r with
    | error e =>
      rw [hf] at h
      exact absurd h (by simp)
    | ok od =>
      cases od with
      | none =>
        simp only [hf] at h
        obtain ⟨r1, hr1, hfr⟩ := ih l h hd
        exact ⟨r1, List.mem_cons_of_mem r hr1, hfr⟩
      | some d0 =>
        simp only [hf] at h
        cases hrec : decodeRows f rs with
        | error e =>
          rw [hrec] at h
          exact absurd h (by simp)
        | ok ds =>
          simp only [hrec, Except.ok.injEq] at h
          subst h
          rcases List.mem_cons.mp hd with hd1 | hd1
          · subst hd1
            exact ⟨r, List.mem_cons_self r rs, hf⟩
          · obtain ⟨r1, hr1, hfr⟩ := ih ds hrec hd1
            exact ⟨r1, List.mem_cons_of_mem r hr1, hfr⟩

theorem processRowFixed_ok_some (labels : List (ℤ × String)) (imgW imgH : ℕ)
    (r : List ℚ) (d : Detection)
    (hp : processRowFixed labels imgW imgH r = .ok (some d)) :
    0 ≤ d.confidence ∧ d.confidence ≤ 1 ∧
    0 ≤ d.x1 ∧ d.x1 ≤ d.x2 ∧ d.x2 ≤ (imgW : ℚ) ∧
    0 ≤ d.y1 ∧ d.y1 ≤ d.y2 ∧ d.y2 ≤ (imgH : ℚ) ∧
    d.label = (labels.lookup d.class_id).getD ("Unknown_" ++ toString d.class_id) := by
  rcases r with _ | ⟨xc, r⟩
  · simp [processRowFixed] at hp
  rcases r with _ | ⟨yc, r⟩
  · simp [processRowFixed] at hp
  rcases r with _ | ⟨bw, r⟩
  · simp [processRowFixed] at hp
  rcases r with _ | ⟨bh, scores⟩
  · simp [processRowFixed] at hp
  rcases scores with _ | ⟨s0, srest⟩
  · simp [processRowFixed] at hp
  simp only [processRowFixed] at hp
  split_ifs at hp with h1 h2 h3
  · simp at hp
  · simp at hp
  · have hd : d = ⟨((argmaxQ (s0 :: srest)).1 : ℤ),
        ((labels.lookup ((argmaxQ (s0 :: srest)).1 : ℤ)).getD
          ("Unknown_" ++ toString ((argmaxQ (s0 :: srest)).1 : ℤ))),
        pyRound 4 (argmaxQ (s0 :: srest)).2,
        pyRound 2 (clampQ ((xc - bw / 2) * (imgW : ℚ)) (imgW : ℚ)),
        pyRound 2 (clampQ ((yc - bh / 2) * (imgH : ℚ)) (imgH : ℚ)),
        pyRound 2 (clampQ ((xc + bw / 2) * (imgW : ℚ)) (imgW : ℚ)),
        pyRound 2 (clampQ ((yc + bh / 2) * (imgH : ℚ)) (imgH : ℚ))⟩ :=
      (Option.some.inj (Except.ok.inj hp)).symm
    subst hd
    push_neg at h2
    obtain ⟨hx, hy⟩ := h2
    have hW : (0 : ℚ) ≤ (imgW : ℚ) := by positivity
    have hH : (0 : ℚ) ≤ (imgH : ℚ) := by positivity
    refine ⟨h3.1, h3.2, ?_, ?_, ?_, ?_, ?_, ?_, rfl⟩
    · simpa using intCast_le_pyRound 2 _ 0 (by simpa using clampQ_nonneg _ (imgW : ℚ))
    · exact pyRound_mono 2 (le_of_lt hx)
    · simpa using pyRound_le_intCast 2 _ (imgW : ℤ) (by simpa using clampQ_le _ _ hW)
    · simpa using intCast_le_pyRound 2 _ 0 (by simpa using clampQ_nonneg _ (imgH : ℚ))
    · exact pyRound_mono 2 (le_of_lt hy)
    · simpa using pyRound_le_intCast 2 _ (imgH : ℤ) (by simpa using clampQ_le _ _ hH)


theorem pyRound_eq (n : ℕ) (x : ℚ) (k : ℤ) (h1 : (k : ℚ) ≤ x * 10 ^ n)
    (h2 : x * 10 ^ n < k + 1/2) : pyRound n x = (k : ℚ) / 10 ^ n := by
  unfold pyRound
  rw [roundHalfEven_eq_down _ k h1 h2]

theorem legacyEmit_label (labels : List (ℤ × String)) (imgW imgH : ℕ)
    (xc yc w h conf : ℚ) (cid : ℤ) (d : Detection)
    (hp : legacyEmit labels imgW imgH xc yc w h conf cid = .ok (some d)) :
    d.label = (labels.lookup d.class_id).getD ("Unknown_" ++ toString d.class_id) := by
  simp only [legacyEmit] at hp
  split_ifs at hp
  all_goals first
    | (obtain rfl := (Option.some.inj (Except.ok.inj hp)).symm; rfl)
    | simp at hp

theorem processRowLegacy_label (numValues : ℕ) (labels : List (ℤ × String))
    (imgW imgH : ℕ) (det : List ℚ) (d : Detection)
    (hp : processRowLegacy numValues labels imgW imgH det = .ok (some d)) :
    d.label = (labels.lookup d.class_id).getD ("Unknown_" ++ toString d.class_id) := by
  simp only [processRowLegacy] at hp
  split_ifs at hp with h85 h6
  · rcases det with _ | ⟨xc, _ | ⟨yc, _ | ⟨w, _ | ⟨h, _ | ⟨obj, scores⟩⟩⟩⟩⟩ <;>
      try simp at hp
    rcases scores with _ | ⟨s0, srest⟩
    · simp at hp
    · exact legacyEmit_label _ _ _ _ _ _ _ _ _ _ hp
  · rcases det with _ | ⟨xc, _ | ⟨yc, _ | ⟨w, _ | ⟨h, _ | ⟨conf, _ | ⟨cidF, rest⟩⟩⟩⟩⟩⟩ <;>
      try simp at hp
    exact legacyEmit_label _ _ _ _ _ _ _ _ _ _ hp
  · simp at hp


/-! ## C5 — label fallback `Unknown_<classId>` -/

/-- C5: in both decoders, every emitted `Detection` carries
`labelMap.get(classId)` with the synthesized fallback `"Unknown_<classId>"`
when the id is absent — the row is emitted either way, never rejected. -/
theorem C5_label_fallback :
    (∀ labels imgW imgH out l d,
      runInferenceFixed labels imgW imgH out = .ok l → d ∈ l →
      d.label = (labels.lookup d.class_id).getD ("Unknown_" ++ toString d.class_id)) ∧
    (∀ labels imgW imgH outs l d,
      runInferenceLegacy labels imgW imgH outs = .ok l → d ∈ l →
      d.label = (labels.lookup d.class_id).getD ("Unknown_" ++ toString d.class_id)) := by
  constructor
  · intro labels imgW imgH out l d h hd
    cases out with
    | rank3 d0 d1 d2 data =>
      simp only [runInferenceFixed] at h
      obtain ⟨r, hr, hpr⟩ := mem_decodeRows _ _ l d h hd
      exact (processRowFixed_ok_some labels imgW imgH r d hpr).2.2.2.2.2.2.2.2
    | rank1 data => simp [runInferenceFixed] at h
    | rank2 data => simp [runInferenceFixed] at h
    | rank4 data => simp [runInferenceFixed] at h
  · intro labels imgW imgH outs l d h hd
    rcases outs with _ | ⟨out, _ | ⟨o2, rest⟩⟩
    · simp only [runInferenceLegacy, Except.ok.injEq] at h
      subst h
      exact absurd hd (List.not_mem_nil d)
    · cases out with
      | rank3 d0 d1 d2 data =>
        simp only [runInferenceLegacy] at h
        obtain ⟨r, hr, hpr⟩ := mem_decodeRows _ _ l d h hd
        exact processRowLegacy_label d2 labels imgW imgH r d hpr
      | rank1 data =>
        simp only [runInferenceLegacy, Except.ok.injEq] at h
        subst h
        exact absurd hd (List.not_mem_nil d)
      | rank2 data =>
        simp only [runInferenceLegacy, Except.ok.injEq] at h
        subst h
        exact absurd hd (List.not_mem_nil d)
      | rank4 data =>
        simp only [runInferenceLegacy, Except.ok.injEq] at h
        subst h
        exact absurd hd (List.not_mem_nil d)
    · simp only [runInferenceLegacy, Except.ok.injEq] at h
      subst h
      exact absurd hd (List.not_mem_nil d)

/-! ## C1 — detection validity of the live decoder -/

/-- C1 amended: every detection emitted by a successful `run_inference` of
the live decoder has confidence in `[0,1]` and clamped, in-bounds
coordinates with `x1 ≤ x2` and `y1 ≤ y2` (degenerate boxes are dropped
before the final 2-decimal rounding; the rounding may collapse the strict
inequality to equality, so only `≤` holds for the emitted values). -/
theorem C1_detection_validity :
    ∀ labels imgW imgH out l d,
      runInferenceFixed labels imgW imgH out = .ok l → d ∈ l →
      0 ≤ d.confidence ∧ d.confidence ≤ 1 ∧
      0 ≤ d.x1 ∧ d.x1 ≤ d.x2 ∧ d.x2 ≤ (imgW : ℚ) ∧
      0 ≤ d.y1 ∧ d.y1 ≤ d.y2 ∧ d.y2 ≤ (imgH : ℚ) := by
  intro labels imgW imgH out l d h hd
  cases out with
  | rank3 d0 d1 d2 data =>
    simp only [runInferenceFixed] at h
    obtain ⟨r, hr, hpr⟩ := mem_decodeRows _ _ l d h hd
    have hh := processRowFixed_ok_some labels imgW imgH r d hpr
    exact ⟨hh.1, hh.2.1, hh.2.2.1, hh.2.2.2.1, hh.2.2.2.2.1, hh.2.2.2.2.2.1,
      hh.2.2.2.2.2.2.1, hh.2.2.2.2.2.2.2.1⟩
  | rank1 data => simp [runInferenceFixed] at h
  | rank2 data => simp [runInferenceFixed] at h
  | rank4 data => simp [runInferenceFixed] at h

theorem evalC1x : runInferenceFixed [] 100 100 inC1x = .ok [outC1x] := by
  have p1 : pyRound 4 (9/10 : ℚ) = 9/10 := pyRound_of_int _ _ 9000 (by norm_num)
  have p2 : pyRound 2 (10 : ℚ) = 10 := pyRound_of_int _ _ 1000 (by norm_num)
  have p3 : pyRound 2 (5001/500 : ℚ) = 10 := by
    rw [pyRound_eq 2 (5001/500) 1000 (by norm_num) (by norm_num)]
    norm_num
  have p4 : pyRound 2 (40 : ℚ) = 40 := pyRound_of_int _ _ 4000 (by norm_num)
  have p5 : pyRound 2 (60 : ℚ) = 60 := pyRound_of_int _ _ 6000 (by norm_num)
  simp only [inC1x, outC1x, runInferenceFixed, transposeM, decodeRows, processRowFixed,
    argmaxQ, argmaxGo, clampQ]
  norm_num [List.range_succ, List.lookup, p1, p2, p3, p4, p5, min_def, max_def, argmaxGo]
  rfl

/-- C1 counterexample: the claim asserts `x1 < x2` for every emitted
detection; this emitted detection has `x1 = x2 = 10` after the final
rounding. -/
theorem C1_rounding_collapse_counterexample :
    runInferenceFixed [] 100 100 inC1x = .ok [outC1x] ∧ outC1x.x1 = outC1x.x2 :=
  ⟨evalC1x, rfl⟩

theorem evalC1w : runInferenceFixed [] 100 100 inC1w = .ok [outC1w] := by
  have p1 : pyRound 4 (9/10 : ℚ) = 9/10 := pyRound_of_int _ _ 9000 (by norm_num)
  have p4 : pyRound 2 (40 : ℚ) = 40 := pyRound_of_int _ _ 4000 (by norm_num)
  have p5 : pyRound 2 (60 : ℚ) = 60 := pyRound_of_int _ _ 6000 (by norm_num)
  simp only [inC1w, outC1w, runInferenceFixed, transposeM, decodeRows, processRowFixed,
    argmaxQ, argmaxGo, clampQ]
  norm_num [List.range_succ, List.lookup, p1, p4, p5, min_def, max_def, argmaxGo]
  rfl

/-- Witness for C1 at a concrete decode. -/
theorem C1_detection_validity_witness :
    runInferenceFixed [] 100 100 inC1w = .ok [outC1w] ∧ outC1w ∈ [outC1w] ∧
    (0 ≤ outC1w.confidence ∧ outC1w.confidence ≤ 1 ∧
     0 ≤ outC1w.x1 ∧ outC1w.x1 ≤ outC1w.x2 ∧ outC1w.x2 ≤ ((100 : ℕ) : ℚ) ∧
     0 ≤ outC1w.y1 ∧ outC1w.y1 ≤ outC1w.y2 ∧ outC1w.y2 ≤ ((100 : ℕ) : ℚ)) :=
  ⟨evalC1w, by simp,
   C1_detection_validity [] 100 100 inC1w [outC1w] outC1w evalC1w (by simp)⟩

theorem evalC5 : runInferenceFixed [(0, "mange")] 100 100 inC5 = .ok [outC5] := by
  have p1 : pyRound 4 (9/10 : ℚ) = 9/10 := pyRound_of_int _ _ 9000 (by norm_num)
  have p4 : pyRound 2 (40 : ℚ) = 40 := pyRound_of_int _ _ 4000 (by norm_num)
  have p5 : pyRound 2 (60 : ℚ) = 60 := pyRound_of_int _ _ 6000 (by norm_num)
  simp only [inC5, outC5, runInferenceFixed, transposeM, decodeRows, processRowFixed,
    argmaxQ, argmaxGo, clampQ]
  norm_num [List.range_succ, List.lookup, p1, p4, p5, min_def, max_def, argmaxGo]
  rfl

/-- Witness for C5: class id 1 is absent from the map `{0 ↦ "mange"}`, and
the emitted detection carries the synthesized label `"Unknown_1"`. -/
theorem C5_label_fallback_witness :
    runInferenceFixed [(0, "mange")] 100 100 inC5 = .ok [outC5] ∧ outC5 ∈ [outC5] ∧
    outC5.label = (([(0, "mange")] : List (ℤ × String)).lookup outC5.class_id).getD
      ("Unknown_" ++ toString outC5.class_id) :=
  ⟨evalC5, by simp,
   C5_label_fallback.1 [(0, "mange")] 100 100 inC5 [outC5] outC5 evalC5 (by simp)⟩


theorem intTrunc_intCast (k : ℤ) : intTrunc (k : ℚ) = k := by
  unfold intTrunc
  split_ifs with h
  · exact_mod_cast Int.floor_intCast k
  · rw [show (-(k : ℚ)) = ((-k : ℤ) : ℚ) by push_cast; ring, Int.floor_intCast]
    ring

theorem argmaxGo_replicate_zero (best : ℚ) (bi i n : ℕ) (h : 0 ≤ best) :
    argmaxGo best bi i (List.replicate n 0) = (bi, best) := by
  induction n generalizing i with
  | zero => rfl
  | succ n ih =>
    rw [List.replicate_succ]
    simp only [argmaxGo]
    rw [if_neg (not_lt.mpr h)]
    exact ih (i + 1)

/-! ## C2 — threshold boundary and provenance -/

theorem evalC2keep : runInferenceLegacy [] 100 100 inC2keep = .ok [outC2keep] := by
  have t3 : intTrunc (3 : ℚ) = 3 := by
    rw [show (3 : ℚ) = ((3 : ℤ) : ℚ) by norm_num]
    exact intTrunc_intCast 3
  have p1 : pyRound 4 (1/2 : ℚ) = 1/2 := pyRound_of_int _ _ 5000 (by norm_num)
  have p4 : pyRound 2 (40 : ℚ) = 40 := pyRound_of_int _ _ 4000 (by norm_num)
  have p5 : pyRound 2 (60 : ℚ) = 60 := pyRound_of_int _ _ 6000 (by norm_num)
  simp only [inC2keep, outC2keep, runInferenceLegacy, decodeRows, processRowLegacy,
    legacyEmit, clampQ]
  norm_num [List.range_succ, List.lookup, t3, p1, p4, p5, min_def, max_def]
  rfl

theorem evalC2drop : runInferenceLegacy [] 100 100 inC2drop = .ok [] := by
  simp only [inC2drop, runInferenceLegacy, decodeRows, processRowLegacy, legacyEmit]
  norm_num [List.range_succ]

theorem evalC2fkeep : runInferenceFixed [] 100 100 inC2fkeep = .ok [outC2fkeep] := by
  have p1 : pyRound 4 (1/4 : ℚ) = 1/4 := pyRound_of_int _ _ 2500 (by norm_num)
  have p4 : pyRound 2 (40 : ℚ) = 40 := pyRound_of_int _ _ 4000 (by norm_num)
  have p5 : pyRound 2 (60 : ℚ) = 60 := pyRound_of_int _ _ 6000 (by norm_num)
  simp only [inC2fkeep, outC2fkeep, runInferenceFixed, transposeM, decodeRows,
    processRowFixed, argmaxQ, argmaxGo, clampQ]
  norm_num [List.range_succ, List.lookup, p1, p4, p5, min_def, max_def, argmaxGo]
  rfl

theorem evalC2fdrop : runInferenceFixed [] 100 100 inC2fdrop = .ok [] := by
  simp only [inC2fdrop, runInferenceFixed, transposeM, decodeRows, processRowFixed,
    argmaxQ, argmaxGo]
  norm_num [List.range_succ, argmaxGo]

theorem evalC2low : runInferenceFixed [] 100 100 inC2low = .ok [outC2low] := by
  have p1 : pyRound 4 (3/10 : ℚ) = 3/10 := pyRound_of_int _ _ 3000 (by norm_num)
  have p4 : pyRound 2 (40 : ℚ) = 40 := pyRound_of_int _ _ 4000 (by norm_num)
  have p5 : pyRound 2 (60 : ℚ) = 60 := pyRound_of_int _ _ 6000 (by norm_num)
  simp only [inC2low, outC2low, runInferenceFixed, transposeM, decodeRows,
    processRowFixed, argmaxQ, argmaxGo, clampQ]
  norm_num [List.range_succ, List.lookup, p1, p4, p5, min_def, max_def, argmaxGo]
  rfl

/-- C2 counterexample: the live (fixed) decoder keeps a row with confidence
0.3, which is below both the configured `DETECTION_CONFIDENCE = 0.5` and the
claim's 0.499999 discard example — its threshold is the hardcoded 0.25, not
the pipeline-supplied configuration value. -/
theorem C2_threshold_counterexample :
    runInferenceFixed [] 100 100 inC2low = .ok [outC2low] ∧
    outC2low.confidence < Config.DETECTION_CONFIDENCE ∧
    outC2low.confidence < 499999/1000000 :=
  ⟨evalC2low, by norm_num [outC2low, Config.DETECTION_CONFIDENCE],
   by norm_num [outC2low]⟩

/-- C2 amended: each decoder's comparison is inclusive (kept iff confidence
`≥` threshold) against its **own hardcoded constant**: the legacy decoder
keeps exactly-0.5 and drops 0.499999 (its constant happens to coincide with
the config default 0.5), while the live fixed decoder keeps exactly-0.25 and
drops 0.24999; neither decoder reads `Config.DETECTION_CONFIDENCE`. -/
theorem C2_threshold_boundary :
    runInferenceLegacy [] 100 100 inC2keep = .ok [outC2keep] ∧
    runInferenceLegacy [] 100 100 inC2drop = .ok [] ∧
    runInferenceFixed [] 100 100 inC2fkeep = .ok [outC2fkeep] ∧
    runInferenceFixed [] 100 100 inC2fdrop = .ok [] ∧
    Config.DETECTION_CONFIDENCE = 1/2 ∧
    outC2keep.confidence = 1/2 ∧ outC2fkeep.confidence = 1/4 :=
  ⟨evalC2keep, evalC2drop, evalC2fkeep, evalC2fdrop, rfl, rfl, rfl⟩

/-! ## C3 — the worked coordinate-transform example -/

theorem evalC3 : runInferenceLegacy [] 100 200 inC3 = .ok [outC3] := by
  have t3 : intTrunc (3 : ℚ) = 3 := by
    rw [show (3 : ℚ) = ((3 : ℤ) : ℚ) by norm_num]
    exact intTrunc_intCast 3
  have p1 : pyRound 4 (9/10 : ℚ) = 9/10 := pyRound_of_int _ _ 9000 (by norm_num)
  have p4 : pyRound 2 (40 : ℚ) = 40 := pyRound_of_int _ _ 4000 (by norm_num)
  have p5 : pyRound 2 (60 : ℚ) = 60 := pyRound_of_int _ _ 6000 (by norm_num)
  have p6 : pyRound 2 (80 : ℚ) = 80 := pyRound_of_int _ _ 8000 (by norm_num)
  have p7 : pyRound 2 (120 : ℚ) = 120 := pyRound_of_int _ _ 12000 (by norm_num)
  simp only [inC3, outC3, runInferenceLegacy, decodeRows, processRowLegacy,
    legacyEmit, clampQ]
  norm_num [List.range_succ, List.lookup, t3, p1, p4, p5, p6, p7, min_def, max_def]
  rfl

/-- C3 counterexample: decoding the spec's worked example row
(cx=cy=0.5, w=h=0.2, conf=0.9, classId=3) against a 100×200 image yields
`bbox = [40, 80, 60, 120]` — `y1 = 80 ≠ 90` and `y2 = 120 ≠ 110`, because
the code scales `h` by the image *height* (200), not the width. -/
theorem C3_coordinate_transform_counterexample :
    runInferenceLegacy [] 100 200 inC3 = .ok [outC3] ∧
    outC3.y1 ≠ 90 ∧ outC3.y2 ≠ 110 :=
  ⟨evalC3, by norm_num [outC3], by norm_num [outC3]⟩

/-- C3 amended: the decode yields `bbox = [40, 80, 60, 120]`, `classId = 3`,
`confidence = 0.9`. -/
theorem C3_coordinate_transform :
    runInferenceLegacy [] 100 200 inC3 = .ok [outC3] ∧
    outC3.class_id = 3 ∧ outC3.confidence = 9/10 ∧
    outC3.x1 = 40 ∧ outC3.y1 = 80 ∧ outC3.x2 = 60 ∧ outC3.y2 = 120 :=
  ⟨evalC3, rfl, rfl, rfl, rfl, rfl, rfl⟩


/-! ## C4 — decode format dispatch -/

theorem evalC4v10 : runInferenceLegacy [] 100 100 inC4v10 = .ok [outC4v10] := by
  have t5 : intTrunc (5 : ℚ) = 5 := by
    rw [show (5 : ℚ) = ((5 : ℤ) : ℚ) by norm_num]
    exact intTrunc_intCast 5
  have p1 : pyRound 4 (9/10 : ℚ) = 9/10 := pyRound_of_int _ _ 9000 (by norm_num)
  have p4 : pyRound 2 (40 : ℚ) = 40 := pyRound_of_int _ _ 4000 (by norm_num)
  have p5 : pyRound 2 (60 : ℚ) = 60 := pyRound_of_int _ _ 6000 (by norm_num)
  simp only [inC4v10, outC4v10, runInferenceLegacy, decodeRows, processRowLegacy,
    legacyEmit, clampQ]
  norm_num [List.range_succ, List.lookup, t5, p1, p4, p5, min_def, max_def]
  rfl

theorem evalC4v85 : runInferenceLegacy [] 100 100 inC4v85 = .ok [outC4v85] := by
  have p1 : pyRound 4 (18/25 : ℚ) = 18/25 := pyRound_of_int _ _ 7200 (by norm_num)
  have p4 : pyRound 2 (40 : ℚ) = 40 := pyRound_of_int _ _ 4000 (by norm_num)
  have p5 : pyRound 2 (60 : ℚ) = 60 := pyRound_of_int _ _ 6000 (by norm_num)
  have ha : argmaxQ (0 :: 0 :: 9/10 :: List.replicate 77 0) = (2, 9/10) := by
    simp only [argmaxQ, argmaxGo]
    norm_num [argmaxGo_replicate_zero]
  simp only [inC4v85, rowC4v85, outC4v85, runInferenceLegacy, decodeRows,
    processRowLegacy, legacyEmit, clampQ]
  norm_num [List.range_succ, List.lookup, ha, p1, p4, p5, min_def, max_def]
  rfl

theorem evalC4cf : runInferenceFixed [] 100 100 inC4cf = .ok [outC4cf] := by
  have p1 : pyRound 4 (4/5 : ℚ) = 4/5 := pyRound_of_int _ _ 8000 (by norm_num)
  have p4 : pyRound 2 (40 : ℚ) = 40 := pyRound_of_int _ _ 4000 (by norm_num)
  have p5 : pyRound 2 (60 : ℚ) = 60 := pyRound_of_int _ _ 6000 (by norm_num)
  simp only [inC4cf, outC4cf, runInferenceFixed, transposeM, decodeRows,
    processRowFixed, argmaxQ, argmaxGo, clampQ]
  norm_num [List.range_succ, List.lookup, p1, p4, p5, min_def, max_def, argmaxGo]
  rfl

/-- C4 counterexample: a rank-2 primary output does **not** make the legacy
decoder fail — the `elif len(output_data.shape) == 2: … pass` branch returns
an empty, successful detection list instead of an `UnsupportedLayout` server
error. -/
theorem C4_rank2_no_error_counterexample :
    runInferenceLegacy [] 100 100 inC4rank2 = .ok [] ∧
    (runInferenceLegacy [] 100 100 inC4rank2).isOk = true :=
  ⟨rfl, rfl⟩

/-- C4 amended: dispatch is a function of tensor shape only, but differs
from the claim.  Legacy decoder (`detection_service.py`): rank-2, rank-4 and
rank-1 single outputs and multiple outputs all return an empty success, not
an error; a rank-3 `[1, N, V]` output is decoded as `BoxConfClass` for every
`6 ≤ V < 85` (not only `V = 6`, witness `V = 10` reading classId from column
5) and as `BoxObjClassScores` for `V ≥ 85` (confidence = objectness × best
class score).  Live fixed decoder (`detection_service_fixed.py`): every
non-rank-3 output raises the 500 server error with no partial results, and
every rank-3 output — even one shaped `[1, N, 6]` — is treated as
`ChannelsFirstGrid` and transposed before row processing. -/
theorem C4_dispatch :
    runInferenceLegacy [] 100 100 inC4rank2 = .ok [] ∧
    runInferenceLegacy [] 100 100 inC4rank4 = .ok [] ∧
    runInferenceLegacy [] 100 100 inC4rank1 = .ok [] ∧
    runInferenceLegacy [] 100 100 inC4multi = .ok [] ∧
    runInferenceLegacy [] 100 100 inC4v10 = .ok [outC4v10] ∧
    runInferenceLegacy [] 100 100 inC4v85 = .ok [outC4v85] ∧
    runInferenceFixed [] 100 100 (.rank2 [[1/2]]) =
      .error ⟨500, "Unexpected model output shape"⟩ ∧
    runInferenceFixed [] 100 100 (.rank4 [[[[1/2]]]]) =
      .error ⟨500, "Unexpected model output shape"⟩ ∧
    runInferenceFixed [] 100 100 (.rank1 [1/2]) =
      .error ⟨500, "Unexpected model output shape"⟩ ∧
    runInferenceFixed [] 100 100 inC4cf = .ok [outC4cf] :=
  ⟨rfl, rfl, rfl, rfl, evalC4v10, evalC4v85, rfl, rfl, rfl, evalC4cf⟩

end PawSense
